import Mathlib

/-! governance-rules-engine: a shallow embedding of `main.go` and `evaluator.go`

The development follows the two source files.

* Go's `(bool, error)` results are pairs `Bool × Option Error`; `none` is the nil error.
* Go's `map[string]T` is the list of its entries.  For `RulesEngine.policies` the list is read
  in the order in which `range` visits the entries; Go leaves that order unspecified, so a
  statement about every iteration order quantifies over every list of entries.
* `time.Now()` and `time.Since` are readings of a `Clock` handed to the call.
* `log.Printf` only writes to the process log and never influences a returned value; it is
  left out.
* The path-query library (`jsonpath.Compile`, `Compiled.Execute`) is an external package; it is
  a parameter `JSONPathLib`.  `NewRegExEvaluator` is called by `NewCompositeEvaluator` but its
  body is not part of the sources; it is a parameter of type `Evaluator`.  What the package
  answers on a given expression is not fixed by the sources; the scenario of `main` with an
  encrypted bucket is stated for the packages that answer as `NotNullQuery` describes, and the
  scenario with an empty property map is stated by the answer the package gives.
* `int` counters are natural numbers: a counter only grows by one per rule visited, so a
  wrap-around would need more than `2^63` loop iterations.
-/

namespace GovernanceRulesEngine

/-! ## Data model (`main.go`, lines 12-73) -/

/-- Go `error` values, identified with their message. -/
abbrev Error := String

/-- Go `time.Time` and durations, as a count of nanoseconds. -/
abbrev Time := Int

/-- Dynamic values stored under `interface{}`: the JSON-like values a property map holds.
`null` is the nil interface value. -/
inductive Value where
  | null : Value
  | bool (b : Bool) : Value
  | num (n : Int) : Value
  | str (s : String) : Value
  | list (xs : List Value) : Value
  | map (kvs : List (String × Value)) : Value

/-- Go `map[string]interface{}`. -/
abbrev Properties := List (String × Value)

/-- Go `map[string]string`. -/
abbrev StringMap := List (String × String)

/-- Rule represents a governance rule. -/
structure Rule where
  ID : String
  Name : String
  Condition : String
  Message : String
  Severity : String
  CreatedAt : Time
deriving DecidableEq, Repr

/-- Policy represents a governance policy. -/
structure Policy where
  ID : String
  Name : String
  Description : String
  Rules : List Rule
  TargetType : String
  Enabled : Bool
  Version : String
  CreatedAt : Time
deriving DecidableEq, Repr

/-- Resource represents a resource to evaluate.  The Go field `Type` is a reserved word here
and is written `Type_`. -/
structure Resource where
  ID : String
  Type_ : String
  Properties : Properties
  Metadata : StringMap
  Tags : StringMap

/-- Violation records one failed rule for one resource. -/
structure Violation where
  RuleID : String
  RuleName : String
  Message : String
  Severity : String
  Condition : String
  ResourceID : String
  ResourceType : String
deriving DecidableEq, Repr

/-- Metrics of one evaluation. -/
structure Metrics where
  TotalRules : Nat
  EvaluatedRules : Nat
  ExecutionTime : Int
  MemoryUsage : Int
deriving DecidableEq, Repr

/-- EvaluationResult represents evaluation outcome. -/
structure EvaluationResult where
  ResourceID : String
  EvaluatedAt : Time
  Passed : Bool
  Violations : List Violation
  Metrics : Metrics
deriving DecidableEq, Repr

/-- RulesEngine is the main engine.  `policies` lists the entries of the Go map in the order
in which `range` visits them. -/
structure RulesEngine where
  policies : List (String × Policy)
  cache : List (String × Value)

/-- Clock readings taken by one call of `Evaluate`: `time.Now()` at line 89, `time.Now()` at
line 92 and the reading behind `time.Since(start)` at line 131. -/
structure Clock where
  start : Time
  evaluatedAt : Time
  finish : Time

/-! ## External path-query package -/

/-- Compiled path-query: the value `jsonpath.Compile` returns, with its `Execute` method. -/
structure Compiled where
  Execute : Properties → Except Error Value

/-- Path-query package used by `evaluator.go`; external to the repository. -/
structure JSONPathLib where
  Compile : String → Except Error Compiled

/-! ## `evaluator.go` -/

/-- Evaluator is the interface with the single method `Evaluate(expression, data)`. -/
abbrev Evaluator := String → Properties → Bool × Option Error

/-- JSONPathEvaluator.Evaluate, `evaluator.go` lines 17-38. -/
def JSONPathEvaluator.Evaluate (jp : JSONPathLib) (expression : String) (data : Properties) :
    Bool × Option Error :=
  match jp.Compile expression with
  | .error err => (false, some err)
  | .ok compiled =>
    match compiled.Execute data with
    | .error err => (false, some err)
    | .ok result =>
      match result with
      | .bool v => (v, none)
      | .null => (false, none)
      | _ => (true, none)

/-- CompositeEvaluator evaluates multiple conditions. -/
structure CompositeEvaluator where
  evaluators : List Evaluator

/-- NewCompositeEvaluator, `evaluator.go` lines 49-56: the path-query variant first, the
pattern-match variant second.  The second variant is the parameter `NewRegExEvaluator`. -/
def NewCompositeEvaluator (jp : JSONPathLib) (NewRegExEvaluator : Evaluator) :
    CompositeEvaluator :=
  { evaluators := [JSONPathEvaluator.Evaluate jp, NewRegExEvaluator] }

/-- The `for ... range c.evaluators` loop of `CompositeEvaluator.Evaluate` followed by the
final `return` of line 64. -/
def CompositeEvaluator.loop (expression : String) (data : Properties) :
    List Evaluator → Bool × Option Error
  | [] => (false, some "no evaluator could process expression")
  | evaluator :: rest =>
    match evaluator expression data with
    | (result, none) => (result, none)
    | (_, some _) => CompositeEvaluator.loop expression data rest

/-- CompositeEvaluator.Evaluate, `evaluator.go` lines 58-65. -/
def CompositeEvaluator.Evaluate (c : CompositeEvaluator) (expression : String)
    (data : Properties) : Bool × Option Error :=
  CompositeEvaluator.loop expression data c.evaluators

/-! ## `main.go` -/

/-- NewRulesEngine, lines 75-80: two empty maps. -/
def NewRulesEngine : RulesEngine :=
  { policies := [], cache := [] }

/-- Assignment `m[k] = v` on a Go map given by its entries: an existing entry under `k` is
overwritten, otherwise a new entry is added. -/
def mapAssign (m : List (String × Policy)) (k : String) (v : Policy) :
    List (String × Policy) :=
  if m.any (fun kv => kv.1 == k) then
    m.map (fun kv => if kv.1 == k then (k, v) else kv)
  else
    m ++ [(k, v)]

/-- RulesEngine.RegisterPolicy, lines 82-86: returns the updated engine and the nil error. -/
def RulesEngine.RegisterPolicy (e : RulesEngine) (policy : Policy) :
    RulesEngine × Option Error :=
  ({ e with policies := mapAssign e.policies policy.ID policy }, none)

/-- RulesEngine.evaluateRule, lines 135-139: a fresh `JSONPathEvaluator` applied to the rule's
condition and the resource's properties. -/
def RulesEngine.evaluateRule (jp : JSONPathLib) (rule : Rule) (resource : Resource) :
    Bool × Option Error :=
  JSONPathEvaluator.Evaluate jp rule.Condition resource.Properties

/-- One iteration of the inner loop of `Evaluate`, lines 107-128. -/
def RulesEngine.ruleStep (jp : JSONPathLib) (resource : Resource)
    (result : EvaluationResult) (rule : Rule) : EvaluationResult :=
  let result : EvaluationResult :=
    { result with
      Metrics := { result.Metrics with EvaluatedRules := result.Metrics.EvaluatedRules + 1 } }
  match RulesEngine.evaluateRule jp rule resource with
  | (_, some _) => result
  | (passed, none) =>
    if !passed then
      { result with
        Passed := false
        Violations := result.Violations ++
          [{ RuleID := rule.ID
             RuleName := rule.Name
             Message := rule.Message
             Severity := rule.Severity
             Condition := rule.Condition
             ResourceID := resource.ID
             ResourceType := resource.Type_ }] }
    else
      result

/-- One iteration of the outer loop of `Evaluate`, lines 100-129. -/
def RulesEngine.policyStep (jp : JSONPathLib) (resource : Resource)
    (result : EvaluationResult) (entry : String × Policy) : EvaluationResult :=
  let policy := entry.2
  if !policy.Enabled || policy.TargetType != resource.Type_ then
    result
  else
    let result : EvaluationResult :=
      { result with
        Metrics := { result.Metrics with
                     TotalRules := result.Metrics.TotalRules + policy.Rules.length } }
    policy.Rules.foldl (RulesEngine.ruleStep jp resource) result

/-- The result record built at lines 90-98. -/
def RulesEngine.initResult (clk : Clock) (resource : Resource) : EvaluationResult :=
  { ResourceID := resource.ID
    EvaluatedAt := clk.evaluatedAt
    Passed := true
    Violations := []
    Metrics := { TotalRules := 0, EvaluatedRules := 0, ExecutionTime := 0, MemoryUsage := 0 } }

/-- RulesEngine.Evaluate, lines 88-133. -/
def RulesEngine.Evaluate (jp : JSONPathLib) (e : RulesEngine) (clk : Clock)
    (resource : Resource) : EvaluationResult :=
  let result := e.policies.foldl (RulesEngine.policyStep jp resource)
    (RulesEngine.initResult clk resource)
  { result with
    Metrics := { result.Metrics with
                 ExecutionTime := (clk.finish - clk.start).tdiv 1000000 } }

/-- RulesEngine.EvaluateBatch, lines 141-149; `clks i` is the clock of the call made for the
resource at index `i`. -/
def RulesEngine.EvaluateBatch (jp : JSONPathLib) (e : RulesEngine) (clks : Nat → Clock)
    (resources : List Resource) : List EvaluationResult :=
  (List.range resources.length).zipWith
    (fun i resource => RulesEngine.Evaluate jp e (clks i) resource) resources

/-- The rule of the policy built by `main`, lines 163-169.  `CreatedAt` is left at its zero
value. -/
def mainRule : Rule :=
  { ID := "rule-001"
    Name := "require-encryption"
    Condition := "$.encryption != null"
    Message := "S3 bucket must have encryption enabled"
    Severity := "high"
    CreatedAt := 0 }

/-- The policy built by `main`, lines 155-171.  `CreatedAt` is left at its zero value. -/
def mainPolicy : Policy :=
  { ID := "s3-encryption"
    Name := "S3 Encryption Required"
    Description := "Requires encryption on all S3 buckets"
    TargetType := "aws_s3_bucket"
    Enabled := true
    Version := "1.0.0"
    Rules := [mainRule]
    CreatedAt := 0 }

/-- The resource built by `main`, lines 175-182. -/
def mainResource : Resource :=
  { ID := "bucket-001"
    Type_ := "aws_s3_bucket"
    Properties := [("encryption", .str "AES256"), ("versioning", .bool true)]
    Metadata := []
    Tags := [] }

/-- The engine of `main` after line 173: a new engine with `mainPolicy` registered. -/
def mainEngine : RulesEngine :=
  (RulesEngine.RegisterPolicy NewRulesEngine mainPolicy).1

/-! ## Behaviour expected from the path-query package -/

/-- Whether a property map holds a value other than null under `key`. -/
def hasNonNull (key : String) (data : Properties) : Bool :=
  match data.lookup key with
  | none => false
  | some .null => false
  | some _ => true

/-- Modelled from the spec: the package behind `jsonpath.Compile` and `Execute` is external and
not part of the sources.  Section 4.1 describes a condition of the form `value != null` as an
explicit boolean predicate and an absent value as a null result.  `NotNullQuery jp expression
key` says that `jp` compiles `expression` into a query that answers, on every property map,
the boolean telling whether the map holds a non-null value under `key`. -/
def NotNullQuery (jp : JSONPathLib) (expression key : String) : Prop :=
  ∃ compiled : Compiled, jp.Compile expression = .ok compiled ∧
    ∀ data : Properties, compiled.Execute data = .ok (.bool (hasNonNull key data))

/-! ## Reference descriptions of the result

These definitions restate, in the words of the specification, what an evaluation is expected
to return; the theorems below compare them with the embedding of the code above. -/

/-- A policy applies to a resource when it is enabled and its target type is the resource's
type. -/
def applies (resource : Resource) (policy : Policy) : Bool :=
  policy.Enabled && policy.TargetType == resource.Type_

/-- The violation that copies the identifying fields of a rule and of a resource. -/
def violationOf (rule : Rule) (resource : Resource) : Violation :=
  { RuleID := rule.ID
    RuleName := rule.Name
    Message := rule.Message
    Severity := rule.Severity
    Condition := rule.Condition
    ResourceID := resource.ID
    ResourceType := resource.Type_ }

/-- A rule fails on a resource when its condition evaluates to false without error. -/
def ruleFails (jp : JSONPathLib) (resource : Resource) (rule : Rule) : Bool :=
  (RulesEngine.evaluateRule jp rule resource).2.isNone &&
    !(RulesEngine.evaluateRule jp rule resource).1

/-- Violations of a sequence of rules: one per failing rule, in the order of the rules. -/
def rulesViolations (jp : JSONPathLib) (resource : Resource) (rules : List Rule) :
    List Violation :=
  (rules.filter (ruleFails jp resource)).map (fun rule => violationOf rule resource)

/-- Violations of one policy: one per failing rule, in the rule order of the policy. -/
def policyViolations (jp : JSONPathLib) (resource : Resource) (policy : Policy) :
    List Violation :=
  rulesViolations jp resource policy.Rules

/-- Violations expected from a sequence of registry entries: the concatenation, over the
applicable policies in sequence order, of the violations of each policy. -/
def expectedViolations (jp : JSONPathLib) (resource : Resource)
    (entries : List (String × Policy)) : List Violation :=
  ((entries.filter (fun entry => applies resource entry.2)).map
    (fun entry => policyViolations jp resource entry.2)).flatten

/-- Number of rules of the applicable policies among the entries. -/
def applicableRuleCount (resource : Resource) (entries : List (String × Policy)) : Nat :=
  ((entries.filter (fun entry => applies resource entry.2)).map
    (fun entry => entry.2.Rules.length)).sum

/-! ## Sample collaborators

Concrete stand-ins for the two external collaborators and a small registry, used to
instantiate the general statements below at concrete inputs. -/

/-- Query that answers the value stored under `key`, and null when the key is absent. -/
def sampleGet (key : String) : Compiled :=
  { Execute := fun data =>
      match data.lookup key with
      | some v => .ok v
      | none => .ok .null }

/-- Query whose execution always fails. -/
def sampleBroken : Compiled :=
  { Execute := fun _ => .error "execution failed" }

/-- Sample path-query package: compiles the expressions of a fixed table and rejects every
other expression. -/
def sampleLib : JSONPathLib :=
  { Compile := fun expression =>
      match [("$.encryption", sampleGet "encryption"),
             ("$.versioning", sampleGet "versioning"),
             ("$.replicas", sampleGet "replicas"),
             ("$.broken", sampleBroken)].lookup expression with
      | some compiled => .ok compiled
      | none => .error "cannot compile expression" }

/-- Sample path-query package that differs from `sampleLib` on `$.broken` only, where the query
answers the boolean true. -/
def sampleLibRepaired : JSONPathLib :=
  { Compile := fun expression =>
      match [("$.encryption", sampleGet "encryption"),
             ("$.versioning", sampleGet "versioning"),
             ("$.replicas", sampleGet "replicas"),
             ("$.broken", { Execute := fun _ => .ok (.bool true) })].lookup expression with
      | some compiled => .ok compiled
      | none => .error "cannot compile expression" }

/-- Sample pattern-match variant: the expression is a literal text, matched against the string
values of the property map; it never fails. -/
def sampleRegEx : Evaluator :=
  fun expression data =>
    (data.any (fun kv => match kv.2 with
                         | .str s => s == expression
                         | _ => false),
     none)

/-- Sample variant that rejects every expression. -/
def sampleFailing : Evaluator :=
  fun _ _ => (false, some "unsupported expression")

/-- Sample rule with the given identifier and condition. -/
def sampleRule (id condition : String) : Rule :=
  { ID := id, Name := "name-of-" ++ id, Condition := condition,
    Message := "message-of-" ++ id, Severity := "high", CreatedAt := 0 }

/-- Sample policy with the given identifier, target type, enabled flag and rules. -/
def samplePolicy (id target : String) (enabled : Bool) (rules : List Rule) : Policy :=
  { ID := id, Name := "name-of-" ++ id, Description := "", Rules := rules,
    TargetType := target, Enabled := enabled, Version := "1.0.0", CreatedAt := 0 }

/-- Sample bucket: encrypted, not versioned, zero replicas. -/
def sampleBucket : Resource :=
  { ID := "bucket-001", Type_ := "aws_s3_bucket",
    Properties := [("encryption", .str "AES256"), ("versioning", .bool false),
                   ("replicas", .num 0)],
    Metadata := [], Tags := [] }

/-- Sample registry: an applicable policy with four rules (passing, failing, failing at
execution, not compiling), a disabled policy and a policy for another resource type. -/
def sampleEngine : RulesEngine :=
  { policies :=
      [("s3", samplePolicy "s3" "aws_s3_bucket" true
          [sampleRule "r1" "$.encryption", sampleRule "r2" "$.versioning",
           sampleRule "r3" "$.broken", sampleRule "r4" "AES256"]),
       ("off", samplePolicy "off" "aws_s3_bucket" false [sampleRule "r5" "$.versioning"]),
       ("ec2", samplePolicy "ec2" "aws_ec2_instance" true [sampleRule "r6" "$.versioning"])],
    cache := [] }

/-- Sample clock. -/
def sampleClock : Clock :=
  { start := 1000000, evaluatedAt := 1000500, finish := 4000000 }

/-- Query that answers whether the property map holds a non-null value under `key`. -/
def sampleNotNull (key : String) : Compiled :=
  { Execute := fun data => .ok (.bool (hasNonNull key data)) }

/-- Sample path-query package that compiles the condition of `mainPolicy` only. -/
def scenarioLib : JSONPathLib :=
  { Compile := fun expression =>
      match [("$.encryption != null", sampleNotNull "encryption")].lookup expression with
      | some compiled => .ok compiled
      | none => .error "cannot compile expression" }

/-- Two applicable sample policies, each with one rule that fails on the sample bucket. -/
def samplePolicyA : Policy :=
  samplePolicy "a" "aws_s3_bucket" true [sampleRule "a1" "$.versioning"]

/-- Second applicable sample policy. -/
def samplePolicyB : Policy :=
  samplePolicy "b" "aws_s3_bucket" true [sampleRule "b1" "$.versioning"]

/-- Registry holding `samplePolicyA` and `samplePolicyB`, visited in the order a, b. -/
def sampleEngineAB : RulesEngine :=
  { policies := [("a", samplePolicyA), ("b", samplePolicyB)], cache := [] }

/-- The same registry, visited in the order b, a. -/
def sampleEngineBA : RulesEngine :=
  { policies := [("b", samplePolicyB), ("a", samplePolicyA)], cache := [] }

/-- The sample bucket with other metadata and tags. -/
def sampleBucketTagged : Resource :=
  { sampleBucket with Metadata := [("owner", "team-a")], Tags := [("env", "prod")] }

end GovernanceRulesEngine

namespace GovernanceRulesEngine

/-! ## Closed forms of the two loops of `Evaluate` -/

theorem ruleStep_eq (jp : JSONPathLib) (resource : Resource) (r : EvaluationResult)
    (rule : Rule) :
    RulesEngine.ruleStep jp resource r rule =
      { r with
        Passed := r.Passed && !ruleFails jp resource rule
        Violations := r.Violations ++
          (if ruleFails jp resource rule then [violationOf rule resource] else [])
        Metrics := { r.Metrics with EvaluatedRules := r.Metrics.EvaluatedRules + 1 } } := by
  unfold RulesEngine.ruleStep ruleFails violationOf
  rcases h : RulesEngine.evaluateRule jp rule resource with ⟨b, _ | err⟩
  · cases b <;> simp
  · simp

theorem ruleFold_eq (jp : JSONPathLib) (resource : Resource) (rules : List Rule) :
    ∀ r : EvaluationResult,
      rules.foldl (RulesEngine.ruleStep jp resource) r =
        { r with
          Passed := r.Passed && (rulesViolations jp resource rules).isEmpty
          Violations := r.Violations ++ rulesViolations jp resource rules
          Metrics := { r.Metrics with
                       EvaluatedRules := r.Metrics.EvaluatedRules + rules.length } } := by
  induction rules with
  | nil => intro r; simp [rulesViolations]
  | cons rule rest ih =>
    intro r
    rw [List.foldl_cons, ih, ruleStep_eq]
    cases hf : ruleFails jp resource rule <;>
      simp [rulesViolations, List.filter_cons, hf, Nat.add_assoc, Nat.add_comm 1]

theorem policyStep_eq (jp : JSONPathLib) (resource : Resource) (r : EvaluationResult)
    (entry : String × Policy) :
    RulesEngine.policyStep jp resource r entry =
      { r with
        Passed := r.Passed && (expectedViolations jp resource [entry]).isEmpty
        Violations := r.Violations ++ expectedViolations jp resource [entry]
        Metrics := { r.Metrics with
                     TotalRules := r.Metrics.TotalRules + applicableRuleCount resource [entry]
                     EvaluatedRules :=
                       r.Metrics.EvaluatedRules + applicableRuleCount resource [entry] } } := by
  unfold RulesEngine.policyStep
  by_cases h : applies resource entry.2 = true
  · have h1 : (!entry.2.Enabled || entry.2.TargetType != resource.Type_) = false := by
      simp only [applies, Bool.and_eq_true, beq_iff_eq] at h
      simp [h.1, h.2]
    simp [h1, ruleFold_eq, expectedViolations, applicableRuleCount, List.filter_cons, h,
      policyViolations]
  · have h1 : (!entry.2.Enabled || entry.2.TargetType != resource.Type_) = true := by
      simp only [applies, Bool.and_eq_true, beq_iff_eq, not_and] at h
      cases he : entry.2.Enabled
      · simp
      · simpa [bne_iff_ne] using h he
    simp [h1, expectedViolations, applicableRuleCount, List.filter_cons, h]

theorem isEmpty_append_eq {α : Type} (xs ys : List α) :
    (xs ++ ys).isEmpty = (xs.isEmpty && ys.isEmpty) := by
  cases xs <;> simp

theorem expectedViolations_cons (jp : JSONPathLib) (resource : Resource)
    (entry : String × Policy) (rest : List (String × Policy)) :
    expectedViolations jp resource (entry :: rest) =
      expectedViolations jp resource [entry] ++ expectedViolations jp resource rest := by
  by_cases h : applies resource entry.2 = true <;>
    simp [expectedViolations, List.filter_cons, h]

theorem applicableRuleCount_cons (resource : Resource)
    (entry : String × Policy) (rest : List (String × Policy)) :
    applicableRuleCount resource (entry :: rest) =
      applicableRuleCount resource [entry] + applicableRuleCount resource rest := by
  by_cases h : applies resource entry.2 = true <;>
    simp [applicableRuleCount, List.filter_cons, h]

theorem policyFold_eq (jp : JSONPathLib) (resource : Resource)
    (entries : List (String × Policy)) :
    ∀ r : EvaluationResult,
      entries.foldl (RulesEngine.policyStep jp resource) r =
        { r with
          Passed := r.Passed && (expectedViolations jp resource entries).isEmpty
          Violations := r.Violations ++ expectedViolations jp resource entries
          Metrics := { r.Metrics with
                       TotalRules := r.Metrics.TotalRules + applicableRuleCount resource entries
                       EvaluatedRules :=
                         r.Metrics.EvaluatedRules + applicableRuleCount resource entries } } := by
  induction entries with
  | nil => intro r; simp [expectedViolations, applicableRuleCount]
  | cons entry rest ih =>
    intro r
    rw [List.foldl_cons, ih, policyStep_eq, expectedViolations_cons jp resource entry rest,
      applicableRuleCount_cons resource entry rest]
    simp [Nat.add_assoc, Bool.and_assoc, isEmpty_append_eq]

/-- Closed form of `Evaluate`: every field of the result in terms of the inputs. -/
theorem Evaluate_eq (jp : JSONPathLib) (e : RulesEngine) (clk : Clock) (resource : Resource) :
    RulesEngine.Evaluate jp e clk resource =
      { ResourceID := resource.ID
        EvaluatedAt := clk.evaluatedAt
        Passed := (expectedViolations jp resource e.policies).isEmpty
        Violations := expectedViolations jp resource e.policies
        Metrics :=
          { TotalRules := applicableRuleCount resource e.policies
            EvaluatedRules := applicableRuleCount resource e.policies
            ExecutionTime := (clk.finish - clk.start).tdiv 1000000
            MemoryUsage := 0 } } := by
  simp [RulesEngine.Evaluate, policyFold_eq, RulesEngine.initResult]

/-! ## Aggregation loop of `Evaluate` -/

/-- C1: for every registry of policies and every resource, the result of `Evaluate` has
`Passed = true` if and only if its `Violations` list is empty. -/
theorem C1_passed_iff_no_violations (jp : JSONPathLib) (e : RulesEngine) (clk : Clock)
    (resource : Resource) :
    (RulesEngine.Evaluate jp e clk resource).Passed = true ↔
      (RulesEngine.Evaluate jp e clk resource).Violations = [] := by
  rw [Evaluate_eq]
  exact List.isEmpty_iff

/-- C2: for every registry, resource and iteration order of the policies, the `Violations` of
`Evaluate` are exactly the concatenation, over the enabled policies whose `TargetType` is the
resource's type, in iteration order, of one violation per rule (in rule order) whose condition
evaluates to false without error; the violation copies the rule's ID, Name, Message, Severity
and Condition and the resource's ID and Type.  Rules that evaluate to true, or with an error,
add nothing. -/
theorem C2_violations_exact (jp : JSONPathLib) (e : RulesEngine) (clk : Clock)
    (resource : Resource) :
    (RulesEngine.Evaluate jp e clk resource).Violations =
      ((e.policies.filter
          (fun entry => entry.2.Enabled && entry.2.TargetType == resource.Type_)).map
        (fun entry =>
          (entry.2.Rules.filter
              (fun rule =>
                decide ((RulesEngine.evaluateRule jp rule resource).2 = none ∧
                  (RulesEngine.evaluateRule jp rule resource).1 = false))).map
            (fun rule =>
              { RuleID := rule.ID
                RuleName := rule.Name
                Message := rule.Message
                Severity := rule.Severity
                Condition := rule.Condition
                ResourceID := resource.ID
                ResourceType := resource.Type_ }))).flatten := by
  rw [Evaluate_eq]
  have hf : ruleFails jp resource =
      fun rule => decide ((RulesEngine.evaluateRule jp rule resource).2 = none ∧
        (RulesEngine.evaluateRule jp rule resource).1 = false) := by
    funext rule
    unfold ruleFails
    rcases RulesEngine.evaluateRule jp rule resource with ⟨b, _ | err⟩ <;> cases b <;> simp
  simp only [expectedViolations, policyViolations, rulesViolations, applies, hf]
  rfl

theorem expectedViolations_append (jp : JSONPathLib) (resource : Resource)
    (xs ys : List (String × Policy)) :
    expectedViolations jp resource (xs ++ ys) =
      expectedViolations jp resource xs ++ expectedViolations jp resource ys := by
  simp [expectedViolations]

theorem applicableRuleCount_append (resource : Resource) (xs ys : List (String × Policy)) :
    applicableRuleCount resource (xs ++ ys) =
      applicableRuleCount resource xs + applicableRuleCount resource ys := by
  simp [applicableRuleCount]

theorem applies_eq_false_of_skipped (resource : Resource) (policy : Policy)
    (h : policy.Enabled = false ∨ policy.TargetType ≠ resource.Type_) :
    applies resource policy = false := by
  unfold applies
  rcases h with h | h
  · simp [h]
  · simp [h]

theorem filter_applies_eq_nil (resource : Resource) (entries : List (String × Policy))
    (h : ∀ entry ∈ entries, entry.2.Enabled = false ∨ entry.2.TargetType ≠ resource.Type_) :
    entries.filter (fun entry => applies resource entry.2) = [] := by
  rw [List.filter_eq_nil_iff]
  intro entry hmem
  simp [applies_eq_false_of_skipped resource entry.2 (h entry hmem)]

/-- C3: a policy that is disabled or whose `TargetType` differs from the resource's type
contributes nothing: with the policy at any place of the iteration, `Evaluate` returns the same
`TotalRules`, `EvaluatedRules`, `Violations` and `Passed` as on the registry without it; and
when no registered policy is both enabled and matching, the result has `TotalRules = 0`,
`EvaluatedRules = 0`, no violations and `Passed = true`. -/
theorem C3_skipped_policy_contributes_nothing (jp : JSONPathLib) (clk clk2 : Clock)
    (resource : Resource) (cache cache2 : List (String × Value))
    (before after entries : List (String × Policy)) (entry : String × Policy)
    (hskip : entry.2.Enabled = false ∨ entry.2.TargetType ≠ resource.Type_) :
    ((RulesEngine.Evaluate jp ⟨before ++ entry :: after, cache⟩ clk resource).Metrics.TotalRules =
        (RulesEngine.Evaluate jp ⟨before ++ after, cache2⟩ clk2 resource).Metrics.TotalRules ∧
      (RulesEngine.Evaluate jp ⟨before ++ entry :: after, cache⟩ clk
          resource).Metrics.EvaluatedRules =
        (RulesEngine.Evaluate jp ⟨before ++ after, cache2⟩ clk2
          resource).Metrics.EvaluatedRules ∧
      (RulesEngine.Evaluate jp ⟨before ++ entry :: after, cache⟩ clk resource).Violations =
        (RulesEngine.Evaluate jp ⟨before ++ after, cache2⟩ clk2 resource).Violations ∧
      (RulesEngine.Evaluate jp ⟨before ++ entry :: after, cache⟩ clk resource).Passed =
        (RulesEngine.Evaluate jp ⟨before ++ after, cache2⟩ clk2 resource).Passed) ∧
    ((∀ other ∈ entries, other.2.Enabled = false ∨ other.2.TargetType ≠ resource.Type_) →
      (RulesEngine.Evaluate jp ⟨entries, cache⟩ clk resource).Metrics.TotalRules = 0 ∧
      (RulesEngine.Evaluate jp ⟨entries, cache⟩ clk resource).Metrics.EvaluatedRules = 0 ∧
      (RulesEngine.Evaluate jp ⟨entries, cache⟩ clk resource).Violations = [] ∧
      (RulesEngine.Evaluate jp ⟨entries, cache⟩ clk resource).Passed = true) := by
  have hv : expectedViolations jp resource (before ++ entry :: after) =
      expectedViolations jp resource (before ++ after) := by
    simp [expectedViolations, List.filter_cons, applies_eq_false_of_skipped resource entry.2 hskip]
  have hc : applicableRuleCount resource (before ++ entry :: after) =
      applicableRuleCount resource (before ++ after) := by
    simp [applicableRuleCount, List.filter_cons,
      applies_eq_false_of_skipped resource entry.2 hskip]
  simp only [Evaluate_eq, hv, hc, true_and, and_self]
  intro hall
  have hnil := filter_applies_eq_nil resource entries hall
  simp [expectedViolations, applicableRuleCount, hnil]

/-- Witness of C3 on the sample registry: the disabled policy `off` sits between the applicable
policy and the policy for another type; on the registry made of the two skipped policies the
result is empty. -/
theorem C3_skipped_policy_contributes_nothing_witness :
    (samplePolicy "off" "aws_s3_bucket" false [sampleRule "r5" "$.versioning"]).Enabled = false ∧
    ((RulesEngine.Evaluate sampleLib sampleEngine sampleClock sampleBucket).Violations =
        (RulesEngine.Evaluate sampleLib
          ⟨[("s3", samplePolicy "s3" "aws_s3_bucket" true
              [sampleRule "r1" "$.encryption", sampleRule "r2" "$.versioning",
               sampleRule "r3" "$.broken", sampleRule "r4" "AES256"]),
            ("ec2", samplePolicy "ec2" "aws_ec2_instance" true [sampleRule "r6" "$.versioning"])],
           []⟩ sampleClock sampleBucket).Violations) ∧
    (RulesEngine.Evaluate sampleLib
        ⟨[("off", samplePolicy "off" "aws_s3_bucket" false [sampleRule "r5" "$.versioning"]),
          ("ec2", samplePolicy "ec2" "aws_ec2_instance" true [sampleRule "r6" "$.versioning"])],
         []⟩ sampleClock sampleBucket).Metrics.TotalRules = 0 :=
  ⟨rfl,
   (C3_skipped_policy_contributes_nothing sampleLib sampleClock sampleClock sampleBucket [] []
      [("s3", samplePolicy "s3" "aws_s3_bucket" true
          [sampleRule "r1" "$.encryption", sampleRule "r2" "$.versioning",
           sampleRule "r3" "$.broken", sampleRule "r4" "AES256"])]
      [("ec2", samplePolicy "ec2" "aws_ec2_instance" true [sampleRule "r6" "$.versioning"])]
      [("off", samplePolicy "off" "aws_s3_bucket" false [sampleRule "r5" "$.versioning"]),
       ("ec2", samplePolicy "ec2" "aws_ec2_instance" true [sampleRule "r6" "$.versioning"])]
      ("off", samplePolicy "off" "aws_s3_bucket" false [sampleRule "r5" "$.versioning"])
      (Or.inl rfl)).1.2.2.1,
   ((C3_skipped_policy_contributes_nothing sampleLib sampleClock sampleClock sampleBucket [] []
      [] []
      [("off", samplePolicy "off" "aws_s3_bucket" false [sampleRule "r5" "$.versioning"]),
       ("ec2", samplePolicy "ec2" "aws_ec2_instance" true [sampleRule "r6" "$.versioning"])]
      ("off", samplePolicy "off" "aws_s3_bucket" false [sampleRule "r5" "$.versioning"])
      (Or.inl rfl)).2 (by decide)).1⟩

/-! ## Fail-open on evaluator errors -/

theorem ruleFails_congr (jp jp2 : JSONPathLib) (resource : Resource) (rule : Rule)
    (h : RulesEngine.evaluateRule jp2 rule resource = RulesEngine.evaluateRule jp rule resource ∨
      ((RulesEngine.evaluateRule jp rule resource).2 ≠ none ∧
        RulesEngine.evaluateRule jp2 rule resource = (true, none))) :
    ruleFails jp2 resource rule = ruleFails jp resource rule := by
  unfold ruleFails
  rcases h with h | ⟨herr, htrue⟩
  · rw [h]
  · rw [htrue]
    rcases hr : RulesEngine.evaluateRule jp rule resource with ⟨b, _ | err⟩
    · rw [hr] at herr; exact absurd rfl herr
    · simp

/-- C4: fail-open on evaluator error.  A rule whose condition evaluation returns an error
leaves `Violations` and `Passed` as they were and only counts as evaluated, and the loop goes
on; the `Violations`, `Passed`, `TotalRules` and `EvaluatedRules` of the result are those
obtained when every such rule's condition evaluates to true instead (`jp2` is a path-query
package that answers true where `jp` fails, and otherwise answers as `jp`). -/
theorem C4_fail_open (jp jp2 : JSONPathLib) (e : RulesEngine) (clk clk2 : Clock)
    (resource : Resource)
    (h : ∀ entry ∈ e.policies, ∀ rule ∈ entry.2.Rules,
      RulesEngine.evaluateRule jp2 rule resource = RulesEngine.evaluateRule jp rule resource ∨
        ((RulesEngine.evaluateRule jp rule resource).2 ≠ none ∧
          RulesEngine.evaluateRule jp2 rule resource = (true, none))) :
    (∀ (r : EvaluationResult) (rule : Rule),
        (RulesEngine.evaluateRule jp rule resource).2 ≠ none →
          (RulesEngine.ruleStep jp resource r rule).Violations = r.Violations ∧
          (RulesEngine.ruleStep jp resource r rule).Passed = r.Passed ∧
          (RulesEngine.ruleStep jp resource r rule).Metrics.EvaluatedRules =
            r.Metrics.EvaluatedRules + 1) ∧
    (RulesEngine.Evaluate jp e clk resource).Violations =
      (RulesEngine.Evaluate jp2 e clk2 resource).Violations ∧
    (RulesEngine.Evaluate jp e clk resource).Passed =
      (RulesEngine.Evaluate jp2 e clk2 resource).Passed ∧
    (RulesEngine.Evaluate jp e clk resource).Metrics.TotalRules =
      (RulesEngine.Evaluate jp2 e clk2 resource).Metrics.TotalRules ∧
    (RulesEngine.Evaluate jp e clk resource).Metrics.EvaluatedRules =
      (RulesEngine.Evaluate jp2 e clk2 resource).Metrics.EvaluatedRules := by
  have hv : expectedViolations jp resource e.policies =
      expectedViolations jp2 resource e.policies := by
    unfold expectedViolations
    congr 1
    apply List.map_congr_left
    intro entry hmem
    unfold policyViolations rulesViolations
    congr 1
    apply List.filter_congr
    intro rule hrule
    exact (ruleFails_congr jp jp2 resource rule
      (h entry (List.mem_of_mem_filter hmem) rule hrule)).symm
  refine ⟨?_, ?_⟩
  · intro r rule herr
    have hf : ruleFails jp resource rule = false := by
      unfold ruleFails
      rcases hr : RulesEngine.evaluateRule jp rule resource with ⟨b, _ | err⟩
      · rw [hr] at herr; exact absurd rfl herr
      · simp
    simp [ruleStep_eq, hf]
  · simp [Evaluate_eq, hv]

/-- Witness of C4: on the sample registry the rule `r3` fails at execution and the rule `r4`
does not compile; `sampleLibRepaired` answers true for the condition of `r3`. -/
theorem C4_fail_open_witness :
    (RulesEngine.evaluateRule sampleLib (sampleRule "r3" "$.broken") sampleBucket).2 ≠ none ∧
    RulesEngine.evaluateRule sampleLibRepaired (sampleRule "r3" "$.broken") sampleBucket =
      (true, none) ∧
    (RulesEngine.Evaluate sampleLib sampleEngine sampleClock sampleBucket).Violations =
      (RulesEngine.Evaluate sampleLibRepaired sampleEngine sampleClock sampleBucket).Violations :=
  ⟨by decide, by decide,
   (C4_fail_open sampleLib sampleLibRepaired sampleEngine sampleClock sampleClock sampleBucket
      (by decide)).2.1⟩

/-! ## Which evaluator the engine uses -/

/-- C5 (as stated, refuted): with the sample collaborators, the condition `AES256` is rejected
by the path-query variant and accepted by the pattern-match variant; `evaluateRule` returns the
compile error while the evaluator built by `NewCompositeEvaluator` returns `(true, nil)`, so
the engine skips a rule the composite evaluator would evaluate. -/
theorem C5_evaluateRule_is_not_composite :
    RulesEngine.evaluateRule sampleLib (sampleRule "r4" "AES256") sampleBucket =
      (false, some "cannot compile expression") ∧
    CompositeEvaluator.Evaluate (NewCompositeEvaluator sampleLib sampleRegEx)
      (sampleRule "r4" "AES256").Condition sampleBucket.Properties = (true, none) ∧
    RulesEngine.evaluateRule sampleLib (sampleRule "r4" "AES256") sampleBucket ≠
      CompositeEvaluator.Evaluate (NewCompositeEvaluator sampleLib sampleRegEx)
        (sampleRule "r4" "AES256").Condition sampleBucket.Properties := by
  decide

/-- C5 (amended): `evaluateRule` applies the path-query variant alone to the rule's condition
and the resource's properties.  It returns what the evaluator built by
`NewCompositeEvaluator` returns whenever the path-query variant returns no error; when the
path-query variant returns an error, `evaluateRule` returns that error whatever the
pattern-match variant does, and the rule is skipped. -/
theorem C5_evaluateRule_path_query_only (jp : JSONPathLib) (regex : Evaluator) (rule : Rule)
    (resource : Resource) :
    RulesEngine.evaluateRule jp rule resource =
      JSONPathEvaluator.Evaluate jp rule.Condition resource.Properties ∧
    ((JSONPathEvaluator.Evaluate jp rule.Condition resource.Properties).2 = none →
      RulesEngine.evaluateRule jp rule resource =
        CompositeEvaluator.Evaluate (NewCompositeEvaluator jp regex) rule.Condition
          resource.Properties) ∧
    ((JSONPathEvaluator.Evaluate jp rule.Condition resource.Properties).2 ≠ none →
      (RulesEngine.evaluateRule jp rule resource).2 ≠ none ∧
      ∀ r : EvaluationResult,
        (RulesEngine.ruleStep jp resource r rule).Violations = r.Violations ∧
        (RulesEngine.ruleStep jp resource r rule).Passed = r.Passed) := by
  refine ⟨rfl, ?_, ?_⟩
  · intro hok
    unfold RulesEngine.evaluateRule CompositeEvaluator.Evaluate NewCompositeEvaluator
    rcases hr : JSONPathEvaluator.Evaluate jp rule.Condition resource.Properties with
      ⟨b, _ | err⟩
    · simp [CompositeEvaluator.loop, hr]
    · rw [hr] at hok; exact absurd hok (by simp)
  · intro herr
    refine ⟨herr, ?_⟩
    intro r
    have hf : ruleFails jp resource rule = false := by
      unfold ruleFails RulesEngine.evaluateRule
      rcases hr : JSONPathEvaluator.Evaluate jp rule.Condition resource.Properties with
        ⟨b, _ | err⟩
      · rw [hr] at herr; exact absurd rfl herr
      · simp
    simp [ruleStep_eq, hf]

/-- Witness of C5 (amended): the rule `r2` is evaluated by the path-query variant without
error, and the rule `r4` is rejected by it. -/
theorem C5_evaluateRule_path_query_only_witness :
    (JSONPathEvaluator.Evaluate sampleLib (sampleRule "r2" "$.versioning").Condition
        sampleBucket.Properties).2 = none ∧
    RulesEngine.evaluateRule sampleLib (sampleRule "r2" "$.versioning") sampleBucket =
      CompositeEvaluator.Evaluate (NewCompositeEvaluator sampleLib sampleRegEx)
        (sampleRule "r2" "$.versioning").Condition sampleBucket.Properties ∧
    (JSONPathEvaluator.Evaluate sampleLib (sampleRule "r4" "AES256").Condition
        sampleBucket.Properties).2 ≠ none ∧
    (RulesEngine.evaluateRule sampleLib (sampleRule "r4" "AES256") sampleBucket).2 ≠ none :=
  ⟨by decide,
   (C5_evaluateRule_path_query_only sampleLib sampleRegEx (sampleRule "r2" "$.versioning")
      sampleBucket).2.1 (by decide),
   by decide,
   ((C5_evaluateRule_path_query_only sampleLib sampleRegEx (sampleRule "r4" "AES256")
      sampleBucket).2.2 (by decide)).1⟩

/-! ## `CompositeEvaluator.Evaluate` -/

theorem loop_append_of_errors (expression : String) (data : Properties)
    (pre rest : List Evaluator) (h : ∀ ev ∈ pre, (ev expression data).2 ≠ none) :
    CompositeEvaluator.loop expression data (pre ++ rest) =
      CompositeEvaluator.loop expression data rest := by
  induction pre with
  | nil => rfl
  | cons ev pre ih =>
    have hev := h ev (List.mem_cons_self _ _)
    rw [List.cons_append, CompositeEvaluator.loop]
    rcases hr : ev expression data with ⟨b, _ | err⟩
    · rw [hr] at hev; exact absurd rfl hev
    · exact ih (fun ev2 hmem => h ev2 (List.mem_cons_of_mem _ hmem))

theorem loop_cons_of_ok (expression : String) (data : Properties) (ev : Evaluator)
    (rest : List Evaluator) (h : (ev expression data).2 = none) :
    CompositeEvaluator.loop expression data (ev :: rest) = ((ev expression data).1, none) := by
  rw [CompositeEvaluator.loop]
  rcases hr : ev expression data with ⟨b, _ | err⟩
  · rfl
  · rw [hr] at h; exact absurd h (by simp)

theorem exists_first_ok (expression : String) (data : Properties) (evs : List Evaluator)
    (h : ∃ ev ∈ evs, (ev expression data).2 = none) :
    ∃ (pre : List Evaluator) (first : Evaluator) (post : List Evaluator),
      evs = pre ++ first :: post ∧ (∀ ev ∈ pre, (ev expression data).2 ≠ none) ∧
        (first expression data).2 = none := by
  induction evs with
  | nil => obtain ⟨ev, hmem, _⟩ := h; cases hmem
  | cons ev rest ih =>
    by_cases hev : (ev expression data).2 = none
    · exact ⟨[], ev, rest, rfl, by simp, hev⟩
    · obtain ⟨ev2, hmem, hok⟩ := h
      have hrest : ∃ ev ∈ rest, (ev expression data).2 = none := by
        rcases List.mem_cons.mp hmem with heq | hin
        · subst heq; exact absurd hok hev
        · exact ⟨ev2, hin, hok⟩
      obtain ⟨pre, first, post, hsplit, hpre, hfirst⟩ := ih hrest
      refine ⟨ev :: pre, first, post, by rw [hsplit]; rfl, ?_, hfirst⟩
      intro ev3 hmem3
      rcases List.mem_cons.mp hmem3 with heq | hin
      · subst heq; exact hev
      · exact hpre ev3 hin

/-- C6: for every ordered list of evaluator variants, expression and data, if at least one
variant returns no error, then the list splits at the first variant that returns no error
(every variant before it returns an error), and `CompositeEvaluator.Evaluate` returns, with
no error, the boolean of that variant, be it true or false, whatever variants follow it.  In
particular, with two variants where the first returns an error and the second returns
`(true, nil)`, the composite returns `(true, nil)`. -/
theorem C6_first_success_wins (evs : List Evaluator) (expression : String) (data : Properties)
    (h : ∃ ev ∈ evs, (ev expression data).2 = none) :
    (∃ (pre : List Evaluator) (first : Evaluator) (post : List Evaluator),
      evs = pre ++ first :: post ∧
      (∀ ev ∈ pre, (ev expression data).2 ≠ none) ∧
      (first expression data).2 = none ∧
      CompositeEvaluator.Evaluate ⟨evs⟩ expression data = ((first expression data).1, none) ∧
      ∀ others : List Evaluator,
        CompositeEvaluator.Evaluate ⟨pre ++ first :: others⟩ expression data =
          ((first expression data).1, none)) ∧
    (∀ ev1 ev2 : Evaluator, (ev1 expression data).2 ≠ none →
      ev2 expression data = (true, none) →
      CompositeEvaluator.Evaluate ⟨[ev1, ev2]⟩ expression data = (true, none)) := by
  constructor
  · obtain ⟨pre, first, post, hsplit, hpre, hfirst⟩ := exists_first_ok expression data evs h
    have hall : ∀ others : List Evaluator,
        CompositeEvaluator.Evaluate ⟨pre ++ first :: others⟩ expression data =
          ((first expression data).1, none) := by
      intro others
      unfold CompositeEvaluator.Evaluate
      rw [loop_append_of_errors expression data pre (first :: others) hpre,
        loop_cons_of_ok expression data first others hfirst]
    exact ⟨pre, first, post, hsplit, hpre, hfirst, by rw [hsplit]; exact hall post, hall⟩
  · intro ev1 ev2 h1 h2
    unfold CompositeEvaluator.Evaluate
    have hpre : ∀ ev ∈ [ev1], (ev expression data).2 ≠ none := by
      intro ev hmem
      rw [List.mem_singleton.mp hmem]; exact h1
    have := loop_append_of_errors expression data [ev1] [ev2] hpre
    rw [List.singleton_append] at this
    rw [this, loop_cons_of_ok expression data ev2 [] (by rw [h2]), h2]

/-- Witness of C6: the rejecting variant followed by the sample pattern-match variant, on the
expression `AES256` and the properties of the sample bucket. -/
theorem C6_first_success_wins_witness :
    (∃ ev ∈ [sampleFailing, sampleRegEx], (ev "AES256" sampleBucket.Properties).2 = none) ∧
    CompositeEvaluator.Evaluate ⟨[sampleFailing, sampleRegEx]⟩ "AES256"
      sampleBucket.Properties = (true, none) :=
  ⟨⟨sampleRegEx, by simp, rfl⟩,
   (C6_first_success_wins [sampleFailing, sampleRegEx] "AES256" sampleBucket.Properties
      ⟨sampleRegEx, by simp, rfl⟩).2 sampleFailing sampleRegEx (by decide) (by decide)⟩

theorem loop_of_all_errors (expression : String) (data : Properties) (evs : List Evaluator)
    (h : ∀ ev ∈ evs, (ev expression data).2 ≠ none) :
    CompositeEvaluator.loop expression data evs =
      (false, some "no evaluator could process expression") := by
  have := loop_append_of_errors expression data evs [] h
  rw [List.append_nil] at this
  rw [this, CompositeEvaluator.loop]

/-- C7: for every list of evaluator variants, expression and data,
`CompositeEvaluator.Evaluate` returns an error if and only if every variant of the list
returns an error (the empty list included); the error is then "no evaluator could process
expression", and a result without error is never produced when all variants failed. -/
theorem C7_error_iff_all_fail (evs : List Evaluator) (expression : String)
    (data : Properties) :
    ((CompositeEvaluator.Evaluate ⟨evs⟩ expression data).2 ≠ none ↔
      ∀ ev ∈ evs, (ev expression data).2 ≠ none) ∧
    ((∀ ev ∈ evs, (ev expression data).2 ≠ none) →
      CompositeEvaluator.Evaluate ⟨evs⟩ expression data =
        (false, some "no evaluator could process expression")) ∧
    (CompositeEvaluator.Evaluate ⟨[]⟩ expression data).2 ≠ none := by
  have hall : (∀ ev ∈ evs, (ev expression data).2 ≠ none) →
      CompositeEvaluator.Evaluate ⟨evs⟩ expression data =
        (false, some "no evaluator could process expression") :=
    fun h => loop_of_all_errors expression data evs h
  refine ⟨⟨?_, ?_⟩, hall, ?_⟩
  · intro herr
    by_contra hne
    have hex : ∃ ev ∈ evs, (ev expression data).2 = none := by
      simpa using hne
    obtain ⟨pre, first, post, hsplit, hpre, hfirst⟩ := exists_first_ok expression data evs hex
    apply herr
    unfold CompositeEvaluator.Evaluate
    show (CompositeEvaluator.loop expression data evs).2 = none
    rw [hsplit, loop_append_of_errors expression data pre (first :: post) hpre,
      loop_cons_of_ok expression data first post hfirst]
  · intro h
    rw [hall h]
    simp
  · simp [CompositeEvaluator.Evaluate, CompositeEvaluator.loop]

/-- Witness of C7: two rejecting variants. -/
theorem C7_error_iff_all_fail_witness :
    (∀ ev ∈ [sampleFailing, sampleFailing], (ev "AES256" sampleBucket.Properties).2 ≠ none) ∧
    CompositeEvaluator.Evaluate ⟨[sampleFailing, sampleFailing]⟩ "AES256"
      sampleBucket.Properties = (false, some "no evaluator could process expression") :=
  ⟨by simp [sampleFailing],
   (C7_error_iff_all_fail [sampleFailing, sampleFailing] "AES256" sampleBucket.Properties).2.1
     (by simp [sampleFailing])⟩

/-! ## `JSONPathEvaluator.Evaluate` -/

/-- C8: truthiness rule.  Whenever the path-query compiles and executes without error,
`JSONPathEvaluator.Evaluate` returns no error, and the boolean is the query result itself when
that result is a boolean, false when it is null, and true for every other result; in
particular true for the number 0, the empty string, the empty list and the empty map. -/
theorem C8_truthiness (jp : JSONPathLib) (expression : String) (data : Properties)
    (compiled : Compiled) (result : Value)
    (hcompile : jp.Compile expression = .ok compiled)
    (hexecute : compiled.Execute data = .ok result) :
    (JSONPathEvaluator.Evaluate jp expression data).2 = none ∧
    (∀ b : Bool, result = .bool b → JSONPathEvaluator.Evaluate jp expression data = (b, none)) ∧
    (result = .null → JSONPathEvaluator.Evaluate jp expression data = (false, none)) ∧
    ((∀ b : Bool, result ≠ .bool b) → result ≠ .null →
      JSONPathEvaluator.Evaluate jp expression data = (true, none)) ∧
    (result = .num 0 ∨ result = .str "" ∨ result = .list [] ∨ result = .map [] →
      JSONPathEvaluator.Evaluate jp expression data = (true, none)) := by
  unfold JSONPathEvaluator.Evaluate
  rw [hcompile]
  simp only [hexecute]
  cases result <;> simp

/-- Witness of C8: the sample bucket stores the number 0 under `replicas`, and the query
`$.replicas` evaluates to true. -/
theorem C8_truthiness_witness :
    sampleLib.Compile "$.replicas" = .ok (sampleGet "replicas") ∧
    (sampleGet "replicas").Execute sampleBucket.Properties = .ok (.num 0) ∧
    JSONPathEvaluator.Evaluate sampleLib "$.replicas" sampleBucket.Properties = (true, none) :=
  ⟨rfl, rfl,
   (C8_truthiness sampleLib "$.replicas" sampleBucket.Properties (sampleGet "replicas")
      (.num 0) rfl rfl).2.2.2.2 (Or.inl rfl)⟩

/-! ## Metrics and provenance of violations -/

/-- C9: for every registry and resource, `EvaluatedRules = TotalRules`, and both equal the sum
of `len(policy.Rules)` over the enabled policies whose `TargetType` is the resource's type;
the count does not look at how a rule's evaluation ended, so rules whose evaluation returned
an error are counted in both. -/
theorem C9_metrics_counts (jp : JSONPathLib) (e : RulesEngine) (clk : Clock)
    (resource : Resource) :
    (RulesEngine.Evaluate jp e clk resource).Metrics.EvaluatedRules =
      (RulesEngine.Evaluate jp e clk resource).Metrics.TotalRules ∧
    (RulesEngine.Evaluate jp e clk resource).Metrics.TotalRules =
      ((e.policies.filter
          (fun entry => entry.2.Enabled && entry.2.TargetType == resource.Type_)).map
        (fun entry => entry.2.Rules.length)).sum := by
  rw [Evaluate_eq]
  exact ⟨rfl, rfl⟩

/-- C10: for every registry and resource, every violation in the result of `Evaluate` carries
the ID of some rule of a registered policy that is enabled and whose `TargetType` is the
resource's type, and has `ResourceID = resource.ID` and `ResourceType = resource.Type`. -/
theorem C10_violation_provenance (jp : JSONPathLib) (e : RulesEngine) (clk : Clock)
    (resource : Resource) (v : Violation)
    (hv : v ∈ (RulesEngine.Evaluate jp e clk resource).Violations) :
    (∃ entry ∈ e.policies, entry.2.Enabled = true ∧ entry.2.TargetType = resource.Type_ ∧
      ∃ rule ∈ entry.2.Rules, v.RuleID = rule.ID) ∧
    v.ResourceID = resource.ID ∧ v.ResourceType = resource.Type_ := by
  rw [Evaluate_eq] at hv
  simp only [expectedViolations, policyViolations, rulesViolations, List.mem_flatten,
    List.mem_map, List.mem_filter] at hv
  obtain ⟨vs, ⟨entry, ⟨hmem, happ⟩, hvs⟩, hin⟩ := hv
  rw [← hvs] at hin
  simp only [List.mem_map, List.mem_filter] at hin
  obtain ⟨rule, ⟨hrule, -⟩, rfl⟩ := hin
  simp only [applies, Bool.and_eq_true, beq_iff_eq] at happ
  exact ⟨⟨entry, hmem, happ.1, happ.2, rule, hrule, rfl⟩, rfl, rfl⟩

/-- Witness of C10: the violation of rule `r2` reported for the sample bucket. -/
theorem C10_violation_provenance_witness :
    violationOf (sampleRule "r2" "$.versioning") sampleBucket ∈
      (RulesEngine.Evaluate sampleLib sampleEngine sampleClock sampleBucket).Violations ∧
    (violationOf (sampleRule "r2" "$.versioning") sampleBucket).ResourceID = sampleBucket.ID :=
  ⟨by decide,
   (C10_violation_provenance sampleLib sampleEngine sampleClock sampleBucket
      (violationOf (sampleRule "r2" "$.versioning") sampleBucket) (by decide)).2.1⟩

/-! ## `EvaluateBatch` -/

theorem EvaluateBatch_getElem? (jp : JSONPathLib) (e : RulesEngine) (clks : Nat → Clock)
    (resources : List Resource) (i : Nat) :
    (RulesEngine.EvaluateBatch jp e clks resources)[i]? =
      (resources[i]?).map (fun resource => RulesEngine.Evaluate jp e (clks i) resource) := by
  unfold RulesEngine.EvaluateBatch
  rw [List.getElem?_zipWith]
  by_cases h : i < resources.length
  · simp [List.getElem?_range h, List.getElem?_eq_getElem h]
  · have h2 : resources.length ≤ i := Nat.le_of_not_lt h
    simp [List.getElem?_eq_none h2]

/-- C11: for every list of resources, `EvaluateBatch` returns a list of the same length whose
element at index `i` is the result of `Evaluate` on the resource at index `i` (with the clock
readings of that call), so the input order is kept and no result depends on another
resource; the empty list gives the empty list. -/
theorem C11_batch_pointwise (jp : JSONPathLib) (e : RulesEngine) (clks : Nat → Clock)
    (resources : List Resource) :
    (RulesEngine.EvaluateBatch jp e clks resources).length = resources.length ∧
    (∀ i : Nat, (RulesEngine.EvaluateBatch jp e clks resources)[i]? =
      (resources[i]?).map (fun resource => RulesEngine.Evaluate jp e (clks i) resource)) ∧
    RulesEngine.EvaluateBatch jp e clks [] = [] := by
  refine ⟨?_, EvaluateBatch_getElem? jp e clks resources, rfl⟩
  simp [RulesEngine.EvaluateBatch]

/-! ## `RegisterPolicy` -/

theorem lookup_eq_none_of_any_false (m : List (String × Policy)) (k : String)
    (h : m.any (fun kv => kv.1 == k) = false) : m.lookup k = none := by
  induction m with
  | nil => rfl
  | cons kv rest ih =>
    obtain ⟨k2, v2⟩ := kv
    simp only [List.any_cons, Bool.or_eq_false_iff, beq_eq_false_iff_ne, ne_eq] at h
    have hne : (k == k2) = false := by
      simp only [beq_eq_false_iff_ne, ne_eq]
      exact fun heq => h.1 heq.symm
    rw [List.lookup_cons, hne]
    exact ih h.2

theorem lookup_replace_self (m : List (String × Policy)) (k : String) (v : Policy)
    (h : m.any (fun kv => kv.1 == k) = true) :
    (m.map (fun kv => if kv.1 == k then (k, v) else kv)).lookup k = some v := by
  induction m with
  | nil => simp at h
  | cons kv rest ih =>
    obtain ⟨k2, v2⟩ := kv
    by_cases hk : k2 = k
    · subst hk
      simp [List.lookup_cons]
    · have hrest : rest.any (fun kv => kv.1 == k) = true := by
        simpa [hk] using h
      have hne : (k == k2) = false := by
        simp only [beq_eq_false_iff_ne, ne_eq]
        exact fun heq => hk heq.symm
      simp only [List.map_cons, beq_iff_eq, hk, if_false, List.lookup_cons, hne]
      simpa using ih hrest

theorem lookup_replace_other (m : List (String × Policy)) (k k2 : String) (v : Policy)
    (hne : k2 ≠ k) :
    (m.map (fun kv => if kv.1 == k then (k, v) else kv)).lookup k2 = m.lookup k2 := by
  induction m with
  | nil => rfl
  | cons kv rest ih =>
    obtain ⟨k3, v3⟩ := kv
    by_cases hk : k3 = k
    · subst hk
      have h2 : (k2 == k3) = false := by simpa using hne
      simp only [List.map_cons, beq_self_eq_true, if_true, List.lookup_cons, h2]
      exact ih
    · have hkeep : (if (k3, v3).1 == k then (k, v) else (k3, v3)) = (k3, v3) := by simp [hk]
      rw [List.map_cons, hkeep, List.lookup_cons, List.lookup_cons, ih]

theorem mapAssign_lookup_self (m : List (String × Policy)) (k : String) (v : Policy) :
    (mapAssign m k v).lookup k = some v := by
  unfold mapAssign
  by_cases h : m.any (fun kv => kv.1 == k) = true
  · rw [if_pos h]
    exact lookup_replace_self m k v h
  · rw [if_neg h, List.lookup_append,
      lookup_eq_none_of_any_false m k ((Bool.not_eq_true _).mp h)]
    simp [List.lookup_cons]

theorem mapAssign_lookup_other (m : List (String × Policy)) (k k2 : String) (v : Policy)
    (hne : k2 ≠ k) : (mapAssign m k v).lookup k2 = m.lookup k2 := by
  unfold mapAssign
  by_cases h : m.any (fun kv => kv.1 == k) = true
  · rw [if_pos h]
    exact lookup_replace_other m k k2 v hne
  · have h2 : (k2 == k) = false := by simpa using hne
    rw [if_neg h, List.lookup_append]
    simp [List.lookup_cons, h2]

theorem mapAssign_any (m : List (String × Policy)) (k : String) (v : Policy) :
    (mapAssign m k v).any (fun kv => kv.1 == k) = true := by
  unfold mapAssign
  by_cases h : m.any (fun kv => kv.1 == k) = true
  · rw [if_pos h]
    simp only [List.any_eq_true, List.mem_map] at h ⊢
    obtain ⟨kv, hmem, hkey⟩ := h
    exact ⟨(k, v), ⟨kv, hmem, by simp [hkey]⟩, by simp⟩
  · rw [if_neg h]
    simp

theorem mapAssign_of_any (m : List (String × Policy)) (k : String) (v : Policy)
    (h : m.any (fun kv => kv.1 == k) = true) :
    mapAssign m k v = m.map (fun kv => if kv.1 == k then (k, v) else kv) := by
  unfold mapAssign
  rw [if_pos h]

theorem mapAssign_idem (m : List (String × Policy)) (k : String) (v : Policy) :
    mapAssign (mapAssign m k v) k v = mapAssign m k v := by
  rw [mapAssign_of_any (mapAssign m k v) k v (mapAssign_any m k v)]
  unfold mapAssign
  by_cases h : m.any (fun kv => kv.1 == k) = true
  · rw [if_pos h, List.map_map]
    apply List.map_congr_left
    intro kv _
    by_cases hk : kv.1 = k <;> simp [hk]
  · rw [if_neg h, List.map_append]
    have hkeep : ∀ kv ∈ m, (if kv.1 == k then (k, v) else kv) = kv := by
      intro kv hmem
      have : ¬ kv.1 = k := by
        intro heq
        apply h
        simp only [List.any_eq_true]
        exact ⟨kv, hmem, by simp [heq]⟩
      simp [this]
    rw [List.map_congr_left hkeep]
    simp

theorem mapAssign_keys (m : List (String × Policy)) (k : String) (v : Policy) :
    (mapAssign m k v).map Prod.fst =
      if m.any (fun kv => kv.1 == k) then m.map Prod.fst else m.map Prod.fst ++ [k] := by
  unfold mapAssign
  by_cases h : m.any (fun kv => kv.1 == k) = true
  · rw [if_pos h, if_pos h, List.map_map]
    apply List.map_congr_left
    intro kv _
    by_cases hk : kv.1 = k <;> simp [hk]
  · rw [if_neg h, if_neg h]
    simp

theorem mapAssign_keys_nodup (m : List (String × Policy)) (k : String) (v : Policy)
    (h : (m.map Prod.fst).Nodup) : ((mapAssign m k v).map Prod.fst).Nodup := by
  rw [mapAssign_keys]
  by_cases hany : m.any (fun kv => kv.1 == k) = true
  · rw [if_pos hany]; exact h
  · rw [if_neg hany]
    have hnot : k ∉ m.map Prod.fst := by
      intro hmem
      apply hany
      obtain ⟨kv, hkv, hkey⟩ := List.mem_map.mp hmem
      simp only [List.any_eq_true]
      exact ⟨kv, hkv, by simp [hkey]⟩
    rw [List.nodup_append]
    refine ⟨h, List.nodup_singleton k, ?_⟩
    intro a ha hb
    rw [List.mem_singleton.mp hb] at ha
    exact hnot ha

/-- C12: `RegisterPolicy` never fails.  For every registry and policy it returns the nil error
and a registry in which `policy.ID` is mapped to the given policy and every other ID is mapped
as before; the cache is untouched and IDs stay pairwise distinct.  Hence registering under an
ID already in use replaces the prior version (the last registration wins), and registering the
same policy twice gives the same registry as registering it once. -/
theorem C12_register_policy (e : RulesEngine) (policy older : Policy) :
    (e.RegisterPolicy policy).2 = none ∧
    (e.RegisterPolicy policy).1.policies.lookup policy.ID = some policy ∧
    (∀ k : String, k ≠ policy.ID →
      (e.RegisterPolicy policy).1.policies.lookup k = e.policies.lookup k) ∧
    (older.ID = policy.ID →
      ((e.RegisterPolicy older).1.RegisterPolicy policy).1.policies.lookup older.ID =
        some policy) ∧
    (e.RegisterPolicy policy).1.RegisterPolicy policy = e.RegisterPolicy policy ∧
    ((e.policies.map Prod.fst).Nodup →
      ((e.RegisterPolicy policy).1.policies.map Prod.fst).Nodup) ∧
    (e.RegisterPolicy policy).1.cache = e.cache := by
  refine ⟨rfl, mapAssign_lookup_self e.policies policy.ID policy,
    fun k hk => mapAssign_lookup_other e.policies policy.ID k policy hk, ?_, ?_,
    mapAssign_keys_nodup e.policies policy.ID policy, rfl⟩
  · intro hid
    rw [hid]
    exact mapAssign_lookup_self _ policy.ID policy
  · simp only [RulesEngine.RegisterPolicy, mapAssign_idem]

/-- Witness of C12: on the engine of `main`, a second version of `s3-encryption` (disabled,
without rules) replaces the first, and the lookup of another ID is unchanged. -/
theorem C12_register_policy_witness :
    (samplePolicy "s3-encryption" "aws_s3_bucket" false []).ID = mainPolicy.ID ∧
    ((NewRulesEngine.RegisterPolicy mainPolicy).1.RegisterPolicy
        (samplePolicy "s3-encryption" "aws_s3_bucket" false [])).1.policies.lookup
          "s3-encryption" = some (samplePolicy "s3-encryption" "aws_s3_bucket" false []) ∧
    (sampleEngine.RegisterPolicy mainPolicy).1.policies.lookup "off" =
      sampleEngine.policies.lookup "off" :=
  ⟨rfl,
   (C12_register_policy NewRulesEngine (samplePolicy "s3-encryption" "aws_s3_bucket" false [])
      mainPolicy).2.2.2.1 rfl,
   (C12_register_policy sampleEngine mainPolicy mainPolicy).2.2.1 "off" (by decide)⟩

/-! ## Iteration order of the registry -/

theorem expectedViolations_perm (jp : JSONPathLib) (resource : Resource)
    (xs ys : List (String × Policy)) (h : xs.Perm ys) :
    (expectedViolations jp resource xs).Perm (expectedViolations jp resource ys) := by
  unfold expectedViolations
  exact List.Perm.flatten ((h.filter _).map _)

theorem applicableRuleCount_perm (resource : Resource) (xs ys : List (String × Policy))
    (h : xs.Perm ys) : applicableRuleCount resource xs = applicableRuleCount resource ys := by
  unfold applicableRuleCount
  exact List.Perm.sum_eq ((h.filter _).map _)

theorem policyViolations_isBlock (jp : JSONPathLib) (resource : Resource)
    (entries : List (String × Policy)) (entry : String × Policy) (hmem : entry ∈ entries)
    (happ : applies resource entry.2 = true) :
    policyViolations jp resource entry.2 <:+: expectedViolations jp resource entries := by
  obtain ⟨before, after, rfl⟩ := List.append_of_mem hmem
  rw [expectedViolations_append, expectedViolations_cons]
  have hone : expectedViolations jp resource [entry] = policyViolations jp resource entry.2 := by
    simp [expectedViolations, List.filter_cons, happ]
  rw [hone, ← List.append_assoc]
  exact List.infix_append _ _ _

theorem expectedViolations_eq_producing (jp : JSONPathLib) (resource : Resource)
    (entries : List (String × Policy)) :
    expectedViolations jp resource entries =
      ((entries.filter (fun entry =>
          applies resource entry.2 && !(policyViolations jp resource entry.2).isEmpty)).map
        (fun entry => policyViolations jp resource entry.2)).flatten := by
  induction entries with
  | nil => rfl
  | cons entry rest ih =>
    rw [expectedViolations_cons, ih]
    by_cases happ : applies resource entry.2 = true
    · cases hpv : policyViolations jp resource entry.2 with
      | nil => simp [expectedViolations, List.filter_cons, happ, hpv]
      | cons v vs => simp [expectedViolations, List.filter_cons, happ, hpv]
    · simp [expectedViolations, List.filter_cons, happ]

theorem perm_eq_of_length_le_one {α : Type} (xs ys : List α) (h : xs.Perm ys)
    (hlen : xs.length ≤ 1) : xs = ys := by
  match xs, hlen with
  | [], _ => exact (List.Perm.eq_nil h.symm).symm
  | [a], _ => exact (List.perm_singleton.mp h.symm).symm

/-- C13 (as stated, refuted): a registry with two enabled policies of the resource's type, each
producing a violation.  The two lists hold the same entries under pairwise distinct IDs, so
they are two iteration orders of one unchanged registry; evaluating the same resource visits
`a` before `b` in one evaluation and `b` before `a` in the other, and the two `Violations`
lists differ. -/
theorem C13_violations_order_not_fixed :
    sampleEngineAB.policies.Perm sampleEngineBA.policies ∧
    (sampleEngineAB.policies.map Prod.fst).Nodup ∧
    (RulesEngine.Evaluate sampleLib sampleEngineAB sampleClock sampleBucket).Violations =
      [violationOf (sampleRule "a1" "$.versioning") sampleBucket,
       violationOf (sampleRule "b1" "$.versioning") sampleBucket] ∧
    (RulesEngine.Evaluate sampleLib sampleEngineBA sampleClock sampleBucket).Violations =
      [violationOf (sampleRule "b1" "$.versioning") sampleBucket,
       violationOf (sampleRule "a1" "$.versioning") sampleBucket] ∧
    (RulesEngine.Evaluate sampleLib sampleEngineAB sampleClock sampleBucket).Violations ≠
      (RulesEngine.Evaluate sampleLib sampleEngineBA sampleClock sampleBucket).Violations := by
  decide

/-- C13 (amended): two evaluations of the same resource against an unchanged registry, each
with its own iteration order and clock readings, yield `Violations` lists with the same
elements and multiplicities.  The lists are identical when both evaluations visit the policies
in the same order, and also when at most one enabled policy of the resource's type produces
violations. -/
theorem C13_violations_same_elements (jp : JSONPathLib) (e1 e2 : RulesEngine)
    (clk1 clk2 : Clock) (resource : Resource) (h : e1.policies.Perm e2.policies) :
    (RulesEngine.Evaluate jp e1 clk1 resource).Violations.Perm
      (RulesEngine.Evaluate jp e2 clk2 resource).Violations ∧
    (e1.policies = e2.policies →
      (RulesEngine.Evaluate jp e1 clk1 resource).Violations =
        (RulesEngine.Evaluate jp e2 clk2 resource).Violations) ∧
    ((e1.policies.filter (fun entry =>
        entry.2.Enabled && entry.2.TargetType == resource.Type_ &&
          !(policyViolations jp resource entry.2).isEmpty)).length ≤ 1 →
      (RulesEngine.Evaluate jp e1 clk1 resource).Violations =
        (RulesEngine.Evaluate jp e2 clk2 resource).Violations) := by
  simp only [Evaluate_eq]
  refine ⟨expectedViolations_perm jp resource _ _ h, ?_, ?_⟩
  · intro heq
    rw [heq]
  · intro hlen
    rw [expectedViolations_eq_producing jp resource e1.policies,
      expectedViolations_eq_producing jp resource e2.policies]
    have hperm := h.filter (fun entry =>
      applies resource entry.2 && !(policyViolations jp resource entry.2).isEmpty)
    rw [perm_eq_of_length_le_one _ _ hperm hlen]

/-- Witness of C13 (amended): the two orders of the sample registry with policies `a` and
`b`. -/
theorem C13_violations_same_elements_witness :
    sampleEngineAB.policies.Perm sampleEngineBA.policies ∧
    (RulesEngine.Evaluate sampleLib sampleEngineAB sampleClock sampleBucket).Violations.Perm
      (RulesEngine.Evaluate sampleLib sampleEngineBA sampleClock sampleBucket).Violations :=
  ⟨by decide,
   (C13_violations_same_elements sampleLib sampleEngineAB sampleEngineBA sampleClock sampleClock
      sampleBucket (by decide)).1⟩

/-- C17: independence from the iteration order.  For every registry and resource and any two
orders in which the policies are visited, `Evaluate` returns the same `Passed`, `TotalRules`
and `EvaluatedRules`, and `Violations` lists that are permutations of each other; in both
lists the violations of every applicable policy form one block in the rule order of that
policy. -/
theorem C17_order_independence (jp : JSONPathLib) (e1 e2 : RulesEngine)
    (clk1 clk2 : Clock) (resource : Resource) (h : e1.policies.Perm e2.policies) :
    (RulesEngine.Evaluate jp e1 clk1 resource).Passed =
      (RulesEngine.Evaluate jp e2 clk2 resource).Passed ∧
    (RulesEngine.Evaluate jp e1 clk1 resource).Metrics.TotalRules =
      (RulesEngine.Evaluate jp e2 clk2 resource).Metrics.TotalRules ∧
    (RulesEngine.Evaluate jp e1 clk1 resource).Metrics.EvaluatedRules =
      (RulesEngine.Evaluate jp e2 clk2 resource).Metrics.EvaluatedRules ∧
    (RulesEngine.Evaluate jp e1 clk1 resource).Violations.Perm
      (RulesEngine.Evaluate jp e2 clk2 resource).Violations ∧
    (∀ entry ∈ e1.policies, entry.2.Enabled = true → entry.2.TargetType = resource.Type_ →
      (entry.2.Rules.filter (ruleFails jp resource)).map
          (fun rule => violationOf rule resource) <:+:
        (RulesEngine.Evaluate jp e1 clk1 resource).Violations ∧
      (entry.2.Rules.filter (ruleFails jp resource)).map
          (fun rule => violationOf rule resource) <:+:
        (RulesEngine.Evaluate jp e2 clk2 resource).Violations) := by
  simp only [Evaluate_eq]
  have hperm := expectedViolations_perm jp resource _ _ h
  have hcount := applicableRuleCount_perm resource _ _ h
  refine ⟨hperm.isEmpty_eq, hcount, hcount, hperm, ?_⟩
  intro entry hmem hen hty
  have happ : applies resource entry.2 = true := by simp [applies, hen, hty]
  exact ⟨policyViolations_isBlock jp resource e1.policies entry hmem happ,
    policyViolations_isBlock jp resource e2.policies entry (h.subset hmem) happ⟩

/-- Witness of C17: the two orders of the sample registry with policies `a` and `b`. -/
theorem C17_order_independence_witness :
    sampleEngineAB.policies.Perm sampleEngineBA.policies ∧
    (RulesEngine.Evaluate sampleLib sampleEngineAB sampleClock sampleBucket).Passed =
      (RulesEngine.Evaluate sampleLib sampleEngineBA sampleClock sampleBucket).Passed :=
  ⟨by decide,
   (C17_order_independence sampleLib sampleEngineAB sampleEngineBA sampleClock sampleClock
      sampleBucket (by decide)).1⟩

/-! ## Registration followed by evaluation -/

theorem mapAssign_of_fresh (m : List (String × Policy)) (k : String) (v : Policy)
    (h : ∀ entry ∈ m, entry.1 ≠ k) : mapAssign m k v = m ++ [(k, v)] := by
  unfold mapAssign
  have hany : ¬ m.any (fun kv => kv.1 == k) = true := by
    intro hany
    obtain ⟨kv, hmem, hkey⟩ := List.any_eq_true.mp hany
    exact h kv hmem (by simpa using hkey)
  rw [if_neg hany]

/-- C18: monotonicity under registration.  For every registry, resource and policy whose ID
is not yet registered, and for every order in which the registry is visited after
`RegisterPolicy`, the result of `Evaluate` has `TotalRules` and `EvaluatedRules` at least as
large as before, contains every violation it contained before, with multiplicity, and is
`Passed` only if it was `Passed` before. -/
theorem C18_registration_monotone (jp : JSONPathLib) (e after : RulesEngine) (policy : Policy)
    (clk1 clk2 : Clock) (resource : Resource)
    (hfresh : ∀ entry ∈ e.policies, entry.1 ≠ policy.ID)
    (hafter : after.policies.Perm (e.RegisterPolicy policy).1.policies) :
    (RulesEngine.Evaluate jp e clk1 resource).Metrics.TotalRules ≤
      (RulesEngine.Evaluate jp after clk2 resource).Metrics.TotalRules ∧
    (RulesEngine.Evaluate jp e clk1 resource).Metrics.EvaluatedRules ≤
      (RulesEngine.Evaluate jp after clk2 resource).Metrics.EvaluatedRules ∧
    List.Subperm (RulesEngine.Evaluate jp e clk1 resource).Violations
      (RulesEngine.Evaluate jp after clk2 resource).Violations ∧
    ((RulesEngine.Evaluate jp after clk2 resource).Passed = true →
      (RulesEngine.Evaluate jp e clk1 resource).Passed = true) := by
  have hreg : (e.RegisterPolicy policy).1.policies = e.policies ++ [(policy.ID, policy)] :=
    mapAssign_of_fresh e.policies policy.ID policy hfresh
  rw [hreg] at hafter
  have hperm := expectedViolations_perm jp resource _ _ hafter
  have hcount := applicableRuleCount_perm resource _ _ hafter
  rw [expectedViolations_append] at hperm
  rw [applicableRuleCount_append] at hcount
  have hsub : List.Subperm (expectedViolations jp resource e.policies)
      (expectedViolations jp resource after.policies) :=
    (List.Perm.subperm_left hperm.symm).mp (List.sublist_append_left _ _).subperm
  simp only [Evaluate_eq]
  refine ⟨by omega, by omega, hsub, ?_⟩
  intro hpassed
  have hnil : expectedViolations jp resource after.policies = [] := List.isEmpty_iff.mp hpassed
  rw [hnil] at hsub
  rw [List.isEmpty_iff]
  exact List.eq_nil_of_length_eq_zero (Nat.le_zero.mp hsub.length_le)

/-- Witness of C18: `samplePolicyB` is registered on the registry holding `samplePolicyA`
only. -/
theorem C18_registration_monotone_witness :
    (∀ entry ∈ [("a", samplePolicyA)], entry.1 ≠ samplePolicyB.ID) ∧
    List.Subperm
      (RulesEngine.Evaluate sampleLib ⟨[("a", samplePolicyA)], []⟩ sampleClock
        sampleBucket).Violations
      (RulesEngine.Evaluate sampleLib sampleEngineBA sampleClock sampleBucket).Violations :=
  ⟨by decide,
   (C18_registration_monotone sampleLib ⟨[("a", samplePolicyA)], []⟩ sampleEngineBA
      samplePolicyB sampleClock sampleClock sampleBucket (by decide) (by decide)).2.2.1⟩

/-! ## Fields of the resource read by `Evaluate` -/

theorem ruleStep_congr (jp : JSONPathLib) (r1 r2 : Resource) (hid : r1.ID = r2.ID)
    (hty : r1.Type_ = r2.Type_) (hprops : r1.Properties = r2.Properties) :
    RulesEngine.ruleStep jp r1 = RulesEngine.ruleStep jp r2 := by
  funext result rule
  unfold RulesEngine.ruleStep RulesEngine.evaluateRule
  rw [hid, hty, hprops]

theorem policyStep_congr (jp : JSONPathLib) (r1 r2 : Resource) (hid : r1.ID = r2.ID)
    (hty : r1.Type_ = r2.Type_) (hprops : r1.Properties = r2.Properties) :
    RulesEngine.policyStep jp r1 = RulesEngine.policyStep jp r2 := by
  funext result entry
  unfold RulesEngine.policyStep
  rw [ruleStep_congr jp r1 r2 hid hty hprops, hty]

/-- C19: noninterference of metadata and tags.  For every registry (visited in the same order
by both evaluations) and any two resources that agree on `ID`, `Type` and `Properties`,
whatever their `Metadata` and `Tags`, `Evaluate` returns the same `Passed`, `Violations`,
`TotalRules` and `EvaluatedRules`; with the same clock readings the whole results are equal. -/
theorem C19_metadata_tags_noninterference (jp : JSONPathLib) (e : RulesEngine)
    (clk1 clk2 : Clock) (r1 r2 : Resource) (hid : r1.ID = r2.ID)
    (hty : r1.Type_ = r2.Type_) (hprops : r1.Properties = r2.Properties) :
    (RulesEngine.Evaluate jp e clk1 r1).Passed = (RulesEngine.Evaluate jp e clk2 r2).Passed ∧
    (RulesEngine.Evaluate jp e clk1 r1).Violations =
      (RulesEngine.Evaluate jp e clk2 r2).Violations ∧
    (RulesEngine.Evaluate jp e clk1 r1).Metrics.TotalRules =
      (RulesEngine.Evaluate jp e clk2 r2).Metrics.TotalRules ∧
    (RulesEngine.Evaluate jp e clk1 r1).Metrics.EvaluatedRules =
      (RulesEngine.Evaluate jp e clk2 r2).Metrics.EvaluatedRules ∧
    RulesEngine.Evaluate jp e clk1 r1 = RulesEngine.Evaluate jp e clk1 r2 := by
  have hstep := policyStep_congr jp r1 r2 hid hty hprops
  have hwhole : ∀ clk : Clock,
      RulesEngine.Evaluate jp e clk r1 = RulesEngine.Evaluate jp e clk r2 := by
    intro clk
    unfold RulesEngine.Evaluate RulesEngine.initResult
    rw [hstep, hid]
  refine ⟨?_, ?_, ?_, ?_, hwhole clk1⟩ <;>
    · rw [hwhole clk1]
      simp [Evaluate_eq]

/-- Witness of C19: the sample bucket and the same bucket with other metadata and tags. -/
theorem C19_metadata_tags_noninterference_witness :
    sampleBucket.Metadata ≠ sampleBucketTagged.Metadata ∧
    sampleBucket.Tags ≠ sampleBucketTagged.Tags ∧
    (RulesEngine.Evaluate sampleLib sampleEngine sampleClock sampleBucket).Violations =
      (RulesEngine.Evaluate sampleLib sampleEngine sampleClock sampleBucketTagged).Violations :=
  ⟨by decide, by decide,
   (C19_metadata_tags_noninterference sampleLib sampleEngine sampleClock sampleClock sampleBucket
      sampleBucketTagged rfl rfl rfl).2.1⟩

/-! ## Errors of the path-query package -/

/-- C16: for every expression and data, if compiling the expression fails, or executing the
compiled query on the data fails, `JSONPathEvaluator.Evaluate` returns that error; it returns
false without error only when the query compiled and ran and its result was the boolean false
or null. -/
theorem C16_errors_returned (jp : JSONPathLib) (expression : String) (data : Properties) :
    (∀ err : Error, jp.Compile expression = .error err →
      JSONPathEvaluator.Evaluate jp expression data = (false, some err)) ∧
    (∀ (compiled : Compiled) (err : Error), jp.Compile expression = .ok compiled →
      compiled.Execute data = .error err →
      JSONPathEvaluator.Evaluate jp expression data = (false, some err)) ∧
    (JSONPathEvaluator.Evaluate jp expression data = (false, none) →
      ∃ compiled : Compiled, jp.Compile expression = .ok compiled ∧
        (compiled.Execute data = .ok (.bool false) ∨ compiled.Execute data = .ok .null)) := by
  refine ⟨?_, ?_, ?_⟩
  · intro err hc
    simp [JSONPathEvaluator.Evaluate, hc]
  · intro compiled err hc he
    simp [JSONPathEvaluator.Evaluate, hc, he]
  · intro hres
    unfold JSONPathEvaluator.Evaluate at hres
    cases hc : jp.Compile expression with
    | error err => simp [hc] at hres
    | ok compiled =>
      refine ⟨compiled, rfl, ?_⟩
      cases he : compiled.Execute data with
      | error err => simp [hc, he] at hres
      | ok result =>
        simp only [hc, he] at hres
        cases result <;> simp_all

/-- Witness of C16: on the sample package the expression `AES256` does not compile, the query
`$.broken` fails at execution, and `$.versioning` answers the boolean false on the sample
bucket. -/
theorem C16_errors_returned_witness :
    sampleLib.Compile "AES256" = .error "cannot compile expression" ∧
    JSONPathEvaluator.Evaluate sampleLib "AES256" sampleBucket.Properties =
      (false, some "cannot compile expression") ∧
    JSONPathEvaluator.Evaluate sampleLib "$.broken" sampleBucket.Properties =
      (false, some "execution failed") ∧
    JSONPathEvaluator.Evaluate sampleLib "$.versioning" sampleBucket.Properties =
      (false, none) ∧
    (∃ compiled : Compiled, sampleLib.Compile "$.versioning" = .ok compiled ∧
      (compiled.Execute sampleBucket.Properties = .ok (.bool false) ∨
        compiled.Execute sampleBucket.Properties = .ok .null)) :=
  ⟨rfl,
   (C16_errors_returned sampleLib "AES256" sampleBucket.Properties).1
     "cannot compile expression" rfl,
   (C16_errors_returned sampleLib "$.broken" sampleBucket.Properties).2.1 sampleBroken
     "execution failed" rfl rfl,
   by decide,
   (C16_errors_returned sampleLib "$.versioning" sampleBucket.Properties).2.2 (by decide)⟩

/-! ## Scenarios of `main` -/

theorem Evaluate_of_NotNullQuery (jp : JSONPathLib) (expression key : String)
    (data : Properties) (h : NotNullQuery jp expression key) :
    JSONPathEvaluator.Evaluate jp expression data = (hasNonNull key data, none) := by
  obtain ⟨compiled, hc, he⟩ := h
  simp [JSONPathEvaluator.Evaluate, hc, he data]

theorem mainEngine_policies : mainEngine.policies = [("s3-encryption", mainPolicy)] := by
  decide

/-- C15: scenario 1.  With only the policy `s3-encryption` of `main` registered, and a
path-query package that answers its condition `$.encryption != null` as section 4.1
describes, `Evaluate` on a resource of type `aws_s3_bucket` whose properties hold the string
`AES256` under `encryption` returns `Passed = true`, no violation and `EvaluatedRules = 1`. -/
theorem C15_scenario_with_encryption (jp : JSONPathLib) (clk : Clock) (resource : Resource)
    (hlib : NotNullQuery jp "$.encryption != null" "encryption")
    (hty : resource.Type_ = "aws_s3_bucket")
    (hprops : resource.Properties.lookup "encryption" = some (.str "AES256")) :
    (RulesEngine.Evaluate jp mainEngine clk resource).Passed = true ∧
    (RulesEngine.Evaluate jp mainEngine clk resource).Violations = [] ∧
    (RulesEngine.Evaluate jp mainEngine clk resource).Metrics.EvaluatedRules = 1 := by
  have hpass : ruleFails jp resource mainRule = false := by
    unfold ruleFails RulesEngine.evaluateRule
    have hcond : mainRule.Condition = "$.encryption != null" := rfl
    have hnn : hasNonNull "encryption" resource.Properties = true := by
      unfold hasNonNull
      rw [hprops]
    rw [hcond, Evaluate_of_NotNullQuery jp _ "encryption" _ hlib, hnn]
    rfl
  have happ : applies resource mainPolicy = true := by simp [applies, hty, mainPolicy]
  have hrules : mainPolicy.Rules = [mainRule] := rfl
  have hv : expectedViolations jp resource mainEngine.policies = [] := by
    rw [mainEngine_policies]
    simp only [expectedViolations, List.filter_cons, happ, if_true, List.filter_nil,
      List.map_cons, List.map_nil, List.flatten_cons, List.flatten_nil, List.append_nil,
      policyViolations, rulesViolations]
    rw [hrules, List.filter_cons, hpass]
    rfl
  have hc : applicableRuleCount resource mainEngine.policies = 1 := by
    rw [mainEngine_policies]
    simp only [applicableRuleCount, List.filter_cons, happ, if_true, List.filter_nil,
      List.map_cons, List.map_nil, hrules]
    rfl
  rw [Evaluate_eq, hv, hc]
  exact ⟨rfl, rfl, rfl⟩

/-- Witness of C15: the sample package for the scenarios, on the resource with the single
property `encryption = AES256` and on the resource built by `main`. -/
theorem C15_scenario_with_encryption_witness :
    NotNullQuery scenarioLib "$.encryption != null" "encryption" ∧
    (RulesEngine.Evaluate scenarioLib mainEngine sampleClock
      { ID := "bucket-001", Type_ := "aws_s3_bucket",
        Properties := [("encryption", .str "AES256")], Metadata := [], Tags := [] }).Passed
      = true ∧
    (RulesEngine.Evaluate scenarioLib mainEngine sampleClock mainResource).Violations = [] :=
  ⟨⟨sampleNotNull "encryption", rfl, fun _ => rfl⟩,
   (C15_scenario_with_encryption scenarioLib sampleClock
      { ID := "bucket-001", Type_ := "aws_s3_bucket",
        Properties := [("encryption", .str "AES256")], Metadata := [], Tags := [] }
      ⟨sampleNotNull "encryption", rfl, fun _ => rfl⟩ rfl rfl).1,
   (C15_scenario_with_encryption scenarioLib sampleClock mainResource
      ⟨sampleNotNull "encryption", rfl, fun _ => rfl⟩ rfl rfl).2.1⟩

end GovernanceRulesEngine
